import Mathlib

/-!
Verification development for the AnimePipeline repository.

We shallowly embed the orchestration core (`animepipeline/loop.py`), the
Telegram sender (`animepipeline/post/tg.py`) and the FinalRip client
(`animepipeline/encode/finalrip.py`).  External collaborators (qBittorrent,
FinalRip HTTP service, Telegram bot, the JSON store backend) are modelled as
an environment of oracles; the pipeline is a computation producing a trace of
effects (client calls, store writes) together with a result that is either
success or the Python exception that aborted the run.
-/

namespace AnimePipeline

/-- Task status record (the per-task checkpoint state).
Modelled from the spec: the `TaskStatus` class of `animepipeline/store` is not
under `src/`; field names are the ones `loop.py` reads and writes
(`bt_downloaded_path`, `finalrip_downloaded_path`, `tg_uploaded`, `done`), and
per spec §3 a freshly created record has all fields absent/false. -/
structure TaskStatus where
  bt_downloaded_path : Option String := none
  finalrip_downloaded_path : Option String := none
  tg_uploaded : Bool := false
  done : Bool := false
deriving DecidableEq, Repr

/-- `TaskStatus()` — the default-constructed record used by `add_task`. -/
def TaskStatus.init : TaskStatus := {}

/-- `TorrentInfo` from `animepipeline/rss/type.py` (datetime `pub_date`
modelled as an integer timestamp, `link` as a plain string). -/
structure TorrentInfo where
  name : String
  episode : Int
  title : String
  link : String
  hash : String
  pub_date : Int
  size : String
deriving DecidableEq, Repr

/-- `TaskInfo` from `loop.py`: `TorrentInfo` plus routing metadata.
Note: there is no `translation` field — neither here nor in `TorrentInfo`. -/
structure TaskInfo extends TorrentInfo where
  uploader : String
  script : String
  param : String
deriving DecidableEq, Repr

/-- `NyaaConfig` — only the fields `loop.py` consumes.
Modelled from the spec: the rss config classes are not under `src/`;
`build_task_info` reads `.script`, `.param`, `.uploader`. -/
structure NyaaConfig where
  uploader : String
  script : String
  param : String
deriving DecidableEq, Repr

/-- `RSSConfig` — only the fields `loop.py` consumes: the `scripts` and
`params` dictionaries, modelled as association lists.
Modelled from the spec: the rss config classes are not under `src/`. -/
structure RSSConfig where
  scripts : List (String × String)
  params : List (String × String)
deriving DecidableEq, Repr

/-- Dictionary lookup (python `d[k]` guarded by `k in d`). -/
def dictLookup (m : List (String × String)) (k : String) : Option String :=
  match m.find? (fun kv => kv.1 == k) with
  | some kv => some kv.2
  | none => none

/-- `build_task_info` from `loop.py` lines 22-44: raises `ValueError` (here
`Except.error` with the message) when the referenced script or param name is
not in the routing configuration, in that order; otherwise builds `TaskInfo`. -/
def build_task_info (torrent_info : TorrentInfo) (nyaa_config : NyaaConfig)
    (rss_config : RSSConfig) : Except String TaskInfo :=
  match dictLookup rss_config.scripts nyaa_config.script with
  | none => .error ("script not found: " ++ nyaa_config.script)
  | some script =>
    match dictLookup rss_config.params nyaa_config.param with
    | none => .error ("param not found: " ++ nyaa_config.param)
    | some param =>
      .ok { toTorrentInfo := torrent_info
            uploader := nyaa_config.uploader
            script := script
            param := param }

/-! ### Path helpers (pathlib semantics for the operations `loop.py` uses) -/

/-- Split a character list on a separator (semantics of `str.split(sep)` for
a one-character separator). -/
def splitOnChar (sep : Char) : List Char → List (List Char)
  | [] => [[]]
  | c :: cs =>
    let r := splitOnChar sep cs
    if c = sep then [] :: r
    else
      match r with
      | [] => [[c]]
      | g :: gs => (c :: g) :: gs

/-- Join components with `'/'`. -/
def joinSlash : List (List Char) → List Char
  | [] => []
  | [g] => g
  | g :: gs => g ++ '/' :: joinSlash gs

/-- `Path(p).name`: the final path component. -/
def pathName (p : String) : String :=
  match (splitOnChar '/' p.toList).getLast? with
  | some s => String.mk s
  | none => p

/-- `Path(p).parent` rendered as a string: all components but the last
(`"."` when there is no directory part). -/
def pathParent (p : String) : String :=
  match splitOnChar '/' p.toList with
  | [] => "."
  | [_] => "."
  | parts => String.mk (joinSlash parts.dropLast)

/-- Index of the last `'.'` in a list of characters, if any. -/
def lastDotIdx (cs : List Char) : Option Nat :=
  match cs with
  | [] => none
  | c :: rest =>
    match lastDotIdx rest with
    | some i => some (i + 1)
    | none => if c = '.' then some 0 else none

/-- `Path(p).suffix`, following CPython: `i = name.rfind('.')`; the suffix is
`name[i:]` when `0 < i < len(name) - 1`, else the empty string. -/
def pathSuffix (p : String) : String :=
  let n := (pathName p).toList
  match lastDotIdx n with
  | none => ""
  | some i => if 0 < i ∧ i < n.length - 1 then String.mk (n.drop i) else ""

/-! ### The pipeline computation: trace of effects, errors, environment -/

/-- Observable effects of one pipeline run: stage-client calls, the one
filesystem rename, and store writes. -/
inductive Effect where
  | btCheckExist
  | btAddTorrent
  | btCheckComplete
  | btGetPath
  | frCheckExist (key : String)
  | frUploadNewTask (path : String)
  | frStartTask (key : String) (param : String) (script : String)
  | frCheckCompleted (key : String)
  | frDownload (key : String) (savePath : String)
  | fsRename (src : String) (dst : String)
  | tgSendVideo (path : String) (caption : String)
  | storeAdd (s : TaskStatus)
  | storeUpdate (s : TaskStatus)
deriving DecidableEq, Repr

/-- Which stage a client error came from. -/
inductive Stage where
  | acq
  | fr
  | pub
deriving DecidableEq, Repr

/-- How a pipeline run can abort: out of polling fuel, an exception from a
stage client, one of the `assert` statements of `loop.py`, or the
`AttributeError` raised by the caption f-string (`task_info.translation`,
a field `TaskInfo` does not define). -/
inductive PErr where
  | fuel
  | client (s : Stage)
  | assertBtPath
  | assertFrPath
  | assertTgUploaded
  | captionAttributeError
deriving DecidableEq, Repr

/-- A pipeline computation: a result (or the aborting error) together with
the trace of effects emitted before returning or aborting. -/
structure Pipe (α : Type) where
  res : Except PErr α
  tr : List Effect
deriving Repr

/-- Return without effects. -/
def Pipe.pur {α : Type} (a : α) : Pipe α := { res := .ok a, tr := [] }

/-- Sequence two computations; on error the second never runs and the trace
is the first computation's trace. -/
def Pipe.bind {α β : Type} (m : Pipe α) (f : α → Pipe β) : Pipe β :=
  match m.res with
  | .ok a => { res := (f a).res, tr := m.tr ++ (f a).tr }
  | .error e => { res := .error e, tr := m.tr }

instance : Monad Pipe where
  pure := Pipe.pur
  bind := Pipe.bind

/-- Emit one effect. -/
def emit (e : Effect) : Pipe Unit := { res := .ok (), tr := [e] }

/-- Abort with an error. -/
def thr {α : Type} (e : PErr) : Pipe α := { res := .error e, tr := [] }

/-- Lift a client-call result, tagging a raised exception with its stage. -/
def liftC {α : Type} (s : Stage) (r : Except Unit α) : Pipe α :=
  match r with
  | .ok a => { res := .ok a, tr := [] }
  | .error _ => { res := .error (.client s), tr := [] }

/-- Environment of external collaborators: each oracle gives the result of
the i-th call of that kind (`Except.error` models a raised exception).
`genFileName` stands for `gen_file_name` (`animepipeline/mediainfo`, not
under `src/`), a pure name generator whose output the core never inspects. -/
structure Env where
  btCheckExist : Nat → Except Unit Bool
  btAdd : Nat → Except Unit Unit
  btCheckComplete : Nat → Except Unit Bool
  btGetPath : Except Unit String
  frCheckExist : Nat → Except Unit Bool
  frUpload : Nat → Except Unit Unit
  frStart : Except Unit Unit
  frCheckCompleted : Nat → Except Unit Bool
  frDownload : Except Unit Unit
  genFileName : String → Int → String → String → String
  tgSend : Except Unit Unit
  tgEnabled : Bool

/-! ### The pipeline itself (`Loop.pipeline`, loop.py lines 97-198) -/

/-- `while not check_torrent_exist(hash): add_torrent(...); sleep(10)` —
polling loop of the acquisition stage, bounded by fuel. -/
def btWaitExist (env : Env) : Nat → Nat → Pipe Unit
  | 0, _ => thr .fuel
  | fuel + 1, i => do
    emit .btCheckExist
    let b ← liftC .acq (env.btCheckExist i)
    if b then pure () else do
      emit .btAddTorrent
      liftC .acq (env.btAdd i)
      btWaitExist env fuel (i + 1)

/-- `while not check_download_complete(hash): sleep(10)`. -/
def btWaitComplete (env : Env) : Nat → Nat → Pipe Unit
  | 0, _ => thr .fuel
  | fuel + 1, i => do
    emit .btCheckComplete
    let b ← liftC .acq (env.btCheckComplete i)
    if b then pure () else btWaitComplete env fuel (i + 1)

/-- `while not check_task_exist(name): upload_and_new_task(...); sleep(10)` —
polling loop of the transcode stage (an upload exception is re-raised). -/
def frWaitExist (env : Env) (key path : String) : Nat → Nat → Pipe Unit
  | 0, _ => thr .fuel
  | fuel + 1, i => do
    emit (.frCheckExist key)
    let b ← liftC .fr (env.frCheckExist i)
    if b then pure () else do
      emit (.frUploadNewTask path)
      liftC .fr (env.frUpload i)
      frWaitExist env key path fuel (i + 1)

/-- `while not check_task_completed(name): sleep(10)`. -/
def frWaitCompleted (env : Env) (key : String) : Nat → Nat → Pipe Unit
  | 0, _ => thr .fuel
  | fuel + 1, i => do
    emit (.frCheckCompleted key)
    let b ← liftC .fr (env.frCheckCompleted i)
    if b then pure () else frWaitCompleted env key fuel (i + 1)

/-- Acquisition stage (loop.py lines 110-126): skipped when
`bt_downloaded_path` is already set; otherwise poll until the torrent exists
and the download completes, then persist the downloaded path. -/
def acquisitionStage (env : Env) (fuel : Nat) (st : TaskStatus) : Pipe TaskStatus :=
  match st.bt_downloaded_path with
  | some _ => pure st
  | none => do
    btWaitExist env fuel 0
    btWaitComplete env fuel 0
    emit .btGetPath
    let p ← liftC .acq env.btGetPath
    let st2 := { st with bt_downloaded_path := some p }
    emit (.storeUpdate st2)
    pure st2

/-- `assert task_status.bt_downloaded_path is not None` (loop.py line 128). -/
def assertBt (st : TaskStatus) : Pipe String :=
  match st.bt_downloaded_path with
  | some p => pure p
  | none => thr .assertBtPath

/-- Transcode stage (loop.py lines 131-174): skipped when
`finalrip_downloaded_path` is already set; otherwise register the upload,
start the job, poll completion, download to a temp name, rename to the
generated destination name, then persist the destination path. -/
def transcodeStage (env : Env) (fuel : Nat) (task : TaskInfo) (p : String)
    (st : TaskStatus) : Pipe TaskStatus :=
  match st.finalrip_downloaded_path with
  | some _ => pure st
  | none => do
    let key := pathName p
    frWaitExist env key p fuel 0
    emit (.frStartTask key task.param task.script)
    liftC .fr env.frStart
    frWaitCompleted env key fuel 0
    let temp := pathParent p ++ "/" ++ (key ++ "-encoded.mkv")
    emit (.frDownload key temp)
    liftC .fr env.frDownload
    let gen := env.genFileName temp task.episode task.name task.uploader
    let dst := pathParent p ++ "/" ++ gen
    emit (.fsRename temp dst)
    let st2 := { st with finalrip_downloaded_path := some dst }
    emit (.storeUpdate st2)
    pure st2

/-- `assert task_status.finalrip_downloaded_path is not None` (line 176). -/
def assertFr (st : TaskStatus) : Pipe String :=
  match st.finalrip_downloaded_path with
  | some p => pure p
  | none => thr .assertFrPath

/-- Publish stage (loop.py lines 179-191): skipped when `tg_uploaded` is
already true; the send only happens when a publish client is configured
(`tg_channel_sender is not None`).  The caption f-string reads
`task_info.translation`, a field neither `TaskInfo` nor `TorrentInfo`
defines, so entering the enabled branch raises `AttributeError` before the
publish client is called. -/
def publishStage (env : Env) (frPath : String) (st : TaskStatus) : Pipe TaskStatus :=
  if st.tg_uploaded then pure st
  else if env.tgEnabled then do
    let caption ← (thr .captionAttributeError : Pipe String)
    emit (.tgSendVideo frPath caption)
    liftC .pub env.tgSend
    let st2 := { st with tg_uploaded := true }
    emit (.storeUpdate st2)
    pure st2
  else pure st

/-- `Loop.pipeline` (loop.py lines 97-198) for one task, against the store
record `db` for the task's hash (`none` when no record exists yet). -/
def pipeline (env : Env) (fuel : Nat) (task : TaskInfo)
    (db : Option TaskStatus) : Pipe Unit := do
  let st0 ← match db with
    | none => do
      emit (.storeAdd TaskStatus.init)
      pure TaskStatus.init
    | some s => pure s
  if st0.done then pure ()
  else do
    let st1 ← acquisitionStage env fuel st0
    let p ← assertBt st1
    let st2 ← transcodeStage env fuel task p st1
    let fr ← assertFr st2
    let st3 ← publishStage env fr st2
    if st3.tg_uploaded then do
      emit (.storeUpdate { st3 with done := true })
      pure ()
    else thr .assertTgUploaded

/-! ### One discovery tick of the driver (`Loop.start`, loop.py lines 80-95) -/

/-- The inner `for torrent_info in torrent_info_list` loop of one tick:
returns the hashes submitted to the executor, and the exception (if any)
raised by `build_task_info`.  The call is not wrapped in any handler, so an
exception stops the traversal at the failing item. -/
def runItems (rss : RSSConfig) (cfg : NyaaConfig) :
    List TorrentInfo → List String × Option String
  | [] => ([], none)
  | ti :: tis =>
    match build_task_info ti cfg rss with
    | .error e => ([], some e)
    | .ok _ =>
      let rest := runItems rss cfg tis
      (ti.hash :: rest.1, rest.2)

/-- One full discovery tick (`for cfg in self.rss_config.nyaa`), the parsed
feed contents given as input.  An exception from any item propagates out of
both `for` loops (there is no try/except in `Loop.start`), aborting the tick
and the driver loop. -/
def runTick (rss : RSSConfig) :
    List (NyaaConfig × List TorrentInfo) → List String × Option String
  | [] => ([], none)
  | (cfg, tis) :: rest =>
    let r := runItems rss cfg tis
    match r.2 with
    | some e => (r.1, some e)
    | none =>
      let r2 := runTick rss rest
      (r.1 ++ r2.1, r2.2)

/-! ### Task executor -/

/-- Executor state: the identities with a currently running execution.
Modelled from the spec: `AsyncTaskExecutor` (`animepipeline/pool`) is not
under `src/`; per spec §4.2, `submit` starts work only when no execution for
the identity is running, otherwise it is a no-op. -/
structure ExecutorState where
  running : List String
deriving DecidableEq, Repr

/-- `submit_task`: returns the new state and whether the work was started. -/
def ExecutorState.submit (s : ExecutorState) (tid : String) : ExecutorState × Bool :=
  if s.running.contains tid then (s, false)
  else ({ running := tid :: s.running }, true)

/-- An execution for `tid` finishes (successfully or not). -/
def ExecutorState.finish (s : ExecutorState) (tid : String) : ExecutorState :=
  { running := s.running.erase tid }

/-! ### Telegram channel sender (`animepipeline/post/tg.py`) -/

/-- Result of one `bot.send_video` call. -/
inductive BotResult where
  | ok
  | networkError
  | otherError
deriving DecidableEq, Repr

/-- Environment for `send_video`: whether the video file exists, and the
result of the i-th underlying bot send. -/
structure TgEnv where
  fileExists : Bool
  bot : Nat → BotResult

/-- Exceptions one attempt of `send_video` can raise. -/
inductive TgErr where
  | fileNotFound
  | networkError
deriving DecidableEq, Repr

/-- Outcome of one (undecorated) attempt: the raised exception if any, how
many bot calls were made, and whether the video was actually delivered. -/
structure TgAttempt where
  res : Except TgErr Unit
  botCalls : Nat
  delivered : Bool
deriving Repr

/-- One attempt of `send_video` (tg.py lines 32-64, without the decorator):
a missing file raises `FileNotFoundError` before any bot call; a
`telegram.error.NetworkError` from the bot is printed and re-raised; any
other exception from the bot is printed and swallowed, so the attempt
returns normally although nothing was delivered. -/
def send_video_attempt (env : TgEnv) (i : Nat) : TgAttempt :=
  if env.fileExists then
    match env.bot i with
    | .ok => { res := .ok (), botCalls := 1, delivered := true }
    | .networkError => { res := .error .networkError, botCalls := 1, delivered := false }
    | .otherError => { res := .ok (), botCalls := 1, delivered := false }
  else { res := .error .fileNotFound, botCalls := 0, delivered := false }

/-- Outcome of the decorated call: normal return, or tenacity's `RetryError`
wrapping the last attempt's exception. -/
inductive TgOutcome where
  | ok
  | retryError (e : TgErr)
deriving DecidableEq, Repr

/-- The tenacity retry loop (`stop_after_attempt(10)`, default
`reraise=False`): retries any raised exception; after the attempt budget is
spent the call fails with `RetryError`.  Returns (outcome, attempts made,
deliveries made); `left` is the number of retries remaining. -/
def send_video_loop (env : TgEnv) : Nat → Nat → TgOutcome × Nat × Nat
  | 0, i =>
    match (send_video_attempt env i).res with
    | .ok _ => (.ok, 1, if (send_video_attempt env i).delivered then 1 else 0)
    | .error e => (.retryError e, 1, 0)
  | left + 1, i =>
    match (send_video_attempt env i).res with
    | .ok _ => (.ok, 1, if (send_video_attempt env i).delivered then 1 else 0)
    | .error _ =>
      let r := send_video_loop env left (i + 1)
      (r.1, r.2.1 + 1, r.2.2)

/-- `TGChannelSender.send_video` as called: up to 10 attempts. -/
def send_video (env : TgEnv) : TgOutcome × Nat × Nat := send_video_loop env 9 0

/-! ### FinalRip client (`animepipeline/encode/finalrip.py`) -/

/-- Network operations `upload_and_new_task` can perform, in order. -/
inductive FrEffect where
  | ossPresigned (key : String)
  | ossPut (url : String)
  | newTask (key : String)
deriving DecidableEq, Repr

/-- Exceptions `upload_and_new_task` can raise. -/
inductive FrErr where
  | fileNotFound
  | valueErrorExtension
  | presignedRaised
  | presignedNotSuccess
  | uploadIOError
  | newTaskRaised
  | newTaskNotSuccess
deriving DecidableEq, Repr

/-- Environment for `upload_and_new_task`: file existence, the presigned-URL
response (success flag and URL, or a raised exception), the HTTP status of
the PUT upload, and the new-task response. -/
structure FrEnv where
  fileExists : Bool
  presigned : Except Unit (Bool × String)
  putStatus : Nat
  newTask : Except Unit Bool

/-- `FinalRipClient.upload_and_new_task` (finalrip.py lines 68-101): check
the local file exists, check the extension is supported, then presigned URL
→ PUT upload → new task, raising on each failure.  Returns the result and
the network operations actually performed. -/
def upload_and_new_task (env : FrEnv) (video_extensions : List String)
    (video_path : String) : Except FrErr Unit × List FrEffect :=
  if env.fileExists then
    if video_extensions.contains (pathSuffix video_path) then
      let key := pathName video_path
      match env.presigned with
      | .error _ => (.error .presignedRaised, [.ossPresigned key])
      | .ok pr =>
        if pr.1 then
          if env.putStatus = 200 then
            match env.newTask with
            | .error _ => (.error .newTaskRaised, [.ossPresigned key, .ossPut pr.2, .newTask key])
            | .ok ok2 =>
              if ok2 then (.ok (), [.ossPresigned key, .ossPut pr.2, .newTask key])
              else (.error .newTaskNotSuccess, [.ossPresigned key, .ossPut pr.2, .newTask key])
          else (.error .uploadIOError, [.ossPresigned key, .ossPut pr.2])
        else (.error .presignedNotSuccess, [.ossPresigned key])
    else (.error .valueErrorExtension, [])
  else (.error .fileNotFound, [])

/-! ### Trace classifiers and status invariants -/

/-- Is the effect a call on the acquisition (qBittorrent) client? -/
def Effect.isAcqCall : Effect → Bool
  | .btCheckExist | .btAddTorrent | .btCheckComplete | .btGetPath => true
  | _ => false

/-- Is the effect a call on any stage client? -/
def Effect.isClientCall : Effect → Bool
  | .btCheckExist | .btAddTorrent | .btCheckComplete | .btGetPath
  | .frCheckExist _ | .frUploadNewTask _ | .frStartTask _ _ _
  | .frCheckCompleted _ | .frDownload _ _ | .tgSendVideo _ _ => true
  | _ => false

/-- The status persisted by the effect, if it is a store write. -/
def Effect.writeOf : Effect → Option TaskStatus
  | .storeAdd s => some s
  | .storeUpdate s => some s
  | _ => none

/-- The status persisted by the effect, if it is a store update. -/
def Effect.updateOf : Effect → Option TaskStatus
  | .storeUpdate s => some s
  | _ => none

/-- All statuses written to the store during the trace. -/
def writesOf (tr : List Effect) : List TaskStatus := tr.filterMap Effect.writeOf

/-- All statuses written by `update_task` during the trace. -/
def updatesOf (tr : List Effect) : List TaskStatus := tr.filterMap Effect.updateOf

/-- The stage-client calls of the trace, in order. -/
def clientCallsOf (tr : List Effect) : List Effect :=
  tr.filter (fun e => e.isClientCall)

/-- No acquisition-client call occurs in the trace. -/
def noAcqCalls (tr : List Effect) : Bool := tr.all (fun e => !e.isAcqCall)

/-- No persisted status in the trace has `done = true`. -/
def noDoneWrites (tr : List Effect) : Bool := (writesOf tr).all (fun w => !w.done)

/-- Every status persisted during the trace leaves `finalrip_downloaded_path`
and `tg_uploaded` as they were in `st` and does not set `done` (used to state
that a transcode-stage failure persists no transcode or publish progress). -/
def writesPreserveFr (st : TaskStatus) (tr : List Effect) : Bool :=
  (writesOf tr).all fun w =>
    (w.finalrip_downloaded_path == st.finalrip_downloaded_path) &&
    (w.tg_uploaded == st.tg_uploaded) && !w.done

/-- The monotone checkpoint order on one status record:
`done → tg_uploaded → finalrip path set → bt path set`. -/
def statusOrdered (s : TaskStatus) : Bool :=
  (!s.done || s.tg_uploaded) &&
  (!s.tg_uploaded || s.finalrip_downloaded_path.isSome) &&
  (!s.finalrip_downloaded_path.isSome || s.bt_downloaded_path.isSome)

/-- The checkpoint chain exactly as the claim states it, with the
publishing-disabled escape hatch on the first link. -/
def checkpointChain (tgEnabled : Bool) (s : TaskStatus) : Bool :=
  (!s.done || (s.tg_uploaded || !tgEnabled)) &&
  (!s.tg_uploaded || s.finalrip_downloaded_path.isSome) &&
  (!s.finalrip_downloaded_path.isSome || s.bt_downloaded_path.isSome)

/-- Every status persisted during the trace is in checkpoint order. -/
def allWritesOrdered (tr : List Effect) : Bool := (writesOf tr).all statusOrdered

/-- Every status persisted during the trace satisfies the claim's chain. -/
def allWritesChain (tg : Bool) (tr : List Effect) : Bool :=
  (writesOf tr).all (checkpointChain tg)

/-! ### Concrete inputs used by the closed theorems and witnesses -/

/-- A concrete task descriptor. -/
def taskA : TaskInfo :=
  { name := "Frieren"
    episode := 7
    title := "Frieren EP 07"
    link := "https://example.org/t.torrent"
    hash := "abc123"
    pub_date := 0
    size := "700MB"
    uploader := "Up"
    script := "print(1)"
    param := "slow" }

/-- An all-success environment with publishing enabled. -/
def envOn : Env :=
  { btCheckExist := fun _ => .ok true
    btAdd := fun _ => .ok ()
    btCheckComplete := fun _ => .ok true
    btGetPath := .ok "/downloads/ep7.mkv"
    frCheckExist := fun _ => .ok true
    frUpload := fun _ => .ok ()
    frStart := .ok ()
    frCheckCompleted := fun _ => .ok true
    frDownload := .ok ()
    genFileName := fun _ _ _ _ => "gen.mkv"
    tgSend := .ok ()
    tgEnabled := true }

/-- The same environment with publishing administratively disabled. -/
def envOff : Env := { envOn with tgEnabled := false }

/-- The environment where the FinalRip upload raises. -/
def envFrUploadFails : Env :=
  { envOn with
    frCheckExist := fun _ => .ok false
    frUpload := fun _ => .error () }

/-- Status with both artifact paths recorded, not yet published, not done. -/
def stReady : TaskStatus :=
  { bt_downloaded_path := some "/downloads/ep7.mkv"
    finalrip_downloaded_path := some "/downloads/ep7-final.mkv"
    tg_uploaded := false
    done := false }

/-- Status of a finished task. -/
def stDone : TaskStatus :=
  { bt_downloaded_path := some "/downloads/ep7.mkv"
    finalrip_downloaded_path := some "/downloads/ep7-final.mkv"
    tg_uploaded := true
    done := true }

/-- Status with only the acquisition checkpoint recorded. -/
def stAcquired : TaskStatus :=
  { bt_downloaded_path := some "/downloads/ep7.mkv"
    finalrip_downloaded_path := none
    tg_uploaded := false
    done := false }

/-- A second ready-to-publish status (used by the C9 counterexample). -/
def stReadyB : TaskStatus :=
  { bt_downloaded_path := some "/media/ep2.mkv"
    finalrip_downloaded_path := some "/media/ep2-1080p.mkv"
    tg_uploaded := false
    done := false }

/-- A routing configuration knowing one script and one param name. -/
def rssC3 : RSSConfig :=
  { scripts := [("s1", "src = core.lsmas.LWLibavSource(a)")]
    params := [("p1", "crf=16")] }

/-- A feed config referencing a script name absent from the routing table. -/
def cfgBad : NyaaConfig := { uploader := "Up", script := "missing", param := "p1" }

/-- A feed config whose references resolve. -/
def cfgGood : NyaaConfig := { uploader := "Up", script := "s1", param := "p1" }

/-- A discovered item of the healthy feed. -/
def tiOne : TorrentInfo :=
  { name := "ShowA", episode := 1, title := "a1", link := "la"
    hash := "aaa111", pub_date := 0, size := "1GB" }

/-- A discovered item of the misconfigured feed. -/
def tiTwo : TorrentInfo :=
  { name := "ShowB", episode := 2, title := "b2", link := "lb"
    hash := "bbb222", pub_date := 0, size := "1GB" }

/-- Telegram environment: file present, bot fails with a non-network error. -/
def tgEnvOther : TgEnv := { fileExists := true, bot := fun _ => .otherError }

/-- Telegram environment: file present, bot always hits a network error. -/
def tgEnvNet : TgEnv := { fileExists := true, bot := fun _ => .networkError }

/-- Telegram environment: the video file is missing. -/
def tgEnvMissing : TgEnv := { fileExists := false, bot := fun _ => .ok }

/-- Supported extensions used by the C10 witness. -/
def extsA : List String := [".mkv", ".mp4"]

/-- FinalRip environment with the local file missing. -/
def frEnvMissing : FrEnv :=
  { fileExists := false
    presigned := .ok (true, "http://oss/put")
    putStatus := 200
    newTask := .ok true }

/-- FinalRip environment with the local file present. -/
def frEnvPresent : FrEnv := { frEnvMissing with fileExists := true }

/-! ## Infrastructure lemmas for `Pipe` computations -/

@[simp]
theorem bind_eq {α β : Type} (m : Pipe α) (f : α → Pipe β) :
    m >>= f = Pipe.bind m f := rfl

@[simp]
theorem pure_eq {α : Type} (a : α) : (pure a : Pipe α) = Pipe.pur a := rfl

@[simp]
theorem pur_res {α : Type} (a : α) : (Pipe.pur a).res = .ok a := rfl

@[simp]
theorem pur_tr {α : Type} (a : α) : (Pipe.pur a).tr = [] := rfl

@[simp]
theorem emit_res (e : Effect) : (emit e).res = .ok () := rfl

@[simp]
theorem emit_tr (e : Effect) : (emit e).tr = [e] := rfl

@[simp]
theorem thr_res {α : Type} (e : PErr) : (thr e : Pipe α).res = .error e := rfl

@[simp]
theorem thr_tr {α : Type} (e : PErr) : (thr e : Pipe α).tr = [] := rfl

@[simp]
theorem liftC_tr {α : Type} (s : Stage) (r : Except Unit α) :
    (liftC s r).tr = [] := by
  cases r <;> rfl

theorem bind_pur {α β : Type} (a : α) (f : α → Pipe β) :
    Pipe.bind (Pipe.pur a) f = f a := rfl

theorem res_bind_ok {α β : Type} {m : Pipe α} {f : α → Pipe β} {a : α}
    (h : m.res = .ok a) : (Pipe.bind m f).res = (f a).res := by
  unfold Pipe.bind
  rw [h]

theorem tr_bind_ok {α β : Type} {m : Pipe α} {f : α → Pipe β} {a : α}
    (h : m.res = .ok a) : (Pipe.bind m f).tr = m.tr ++ (f a).tr := by
  unfold Pipe.bind
  rw [h]

theorem res_bind_err {α β : Type} {m : Pipe α} {f : α → Pipe β} {e : PErr}
    (h : m.res = .error e) : (Pipe.bind m f).res = .error e := by
  unfold Pipe.bind
  rw [h]

theorem tr_bind_err {α β : Type} {m : Pipe α} {f : α → Pipe β} {e : PErr}
    (h : m.res = .error e) : (Pipe.bind m f).tr = m.tr := by
  unfold Pipe.bind
  rw [h]

theorem mem_tr_bind {α β : Type} {m : Pipe α} {f : α → Pipe β} {e : Effect}
    (h : e ∈ (Pipe.bind m f).tr) :
    e ∈ m.tr ∨ ∃ a, m.res = .ok a ∧ e ∈ (f a).tr := by
  cases hm : m.res with
  | ok a =>
    rw [tr_bind_ok hm, List.mem_append] at h
    rcases h with h | h
    · exact Or.inl h
    · exact Or.inr ⟨a, rfl, h⟩
  | error e2 =>
    rw [tr_bind_err hm] at h
    exact Or.inl h

theorem res_bind {α β : Type} {m : Pipe α} {f : α → Pipe β} {b : β}
    (h : (Pipe.bind m f).res = .ok b) :
    ∃ a, m.res = .ok a ∧ (f a).res = .ok b := by
  cases hm : m.res with
  | ok a => exact ⟨a, rfl, by rw [res_bind_ok hm] at h; exact h⟩
  | error e => rw [res_bind_err hm] at h; cases h

theorem head_tr_bind {α β : Type} {m : Pipe α} {f : α → Pipe β} {e : Effect}
    (h : m.tr.head? = some e) : (Pipe.bind m f).tr.head? = some e := by
  cases hm : m.res with
  | ok a =>
    rw [tr_bind_ok hm]
    cases htr : m.tr with
    | nil => rw [htr] at h; cases h
    | cons x t => rw [htr] at h; simpa using h
  | error e2 => rw [tr_bind_err hm]; exact h

@[simp]
theorem bind_emit_res {β : Type} (e : Effect) (f : Unit → Pipe β) :
    (Pipe.bind (emit e) f).res = (f ()).res := rfl

@[simp]
theorem bind_emit_tr {β : Type} (e : Effect) (f : Unit → Pipe β) :
    (Pipe.bind (emit e) f).tr = e :: (f ()).tr := rfl

@[simp]
theorem bind_thr {α β : Type} (pe : PErr) (f : α → Pipe β) :
    Pipe.bind (thr pe) f = thr pe := rfl

@[simp]
theorem bind_liftC_ok {α β : Type} (s : Stage) (a : α) (f : α → Pipe β) :
    Pipe.bind (liftC s (.ok a)) f = f a := rfl

@[simp]
theorem bind_liftC_err {α β : Type} (s : Stage) (u : Unit) (f : α → Pipe β) :
    Pipe.bind (liftC s (.error u)) f = thr (.client s) := rfl

theorem res_bind_err_cases {α β : Type} {m : Pipe α} {f : α → Pipe β} {e : PErr}
    (h : (Pipe.bind m f).res = .error e) :
    m.res = .error e ∨ ∃ a, m.res = .ok a ∧ (f a).res = .error e := by
  cases hm : m.res with
  | ok a => exact Or.inr ⟨a, rfl, by rw [res_bind_ok hm] at h; exact h⟩
  | error e2 =>
    rw [res_bind_err hm] at h
    injection h with h
    exact Or.inl (by rw [h])

theorem writesOf_eq_nil_of {tr : List Effect} (h : ∀ e ∈ tr, e.writeOf = none) :
    writesOf tr = [] := by
  unfold writesOf
  induction tr with
  | nil => rfl
  | cons x t ih =>
    have hx := h x (List.mem_cons_self x t)
    have ht : ∀ e ∈ t, e.writeOf = none := fun e he => h e (List.mem_cons_of_mem x he)
    simp [List.filterMap_cons, hx, ih ht]

theorem writesOf_append (l1 l2 : List Effect) :
    writesOf (l1 ++ l2) = writesOf l1 ++ writesOf l2 := by
  unfold writesOf
  exact List.filterMap_append l1 l2 Effect.writeOf

/-! ## Shape lemmas for the polling loops -/

theorem btWaitExist_tr (env : Env) :
    ∀ fuel i, ∀ e ∈ (btWaitExist env fuel i).tr,
      e = .btCheckExist ∨ e = .btAddTorrent := by
  intro fuel
  induction fuel with
  | zero => intro i e he; simp [btWaitExist] at he
  | succ f ih =>
    intro i e he
    simp only [btWaitExist, bind_eq, pure_eq] at he
    rcases mem_tr_bind he with he | ⟨_, _, he⟩
    · left; simpa using he
    · rcases mem_tr_bind he with he | ⟨b, _, he⟩
      · simp at he
      · cases b with
        | false =>
          simp only [Bool.false_eq_true, if_false] at he
          rcases mem_tr_bind he with he | ⟨_, _, he⟩
          · right; simpa using he
          · rcases mem_tr_bind he with he | ⟨_, _, he⟩
            · simp at he
            · exact ih (i + 1) e he
        | true => simp at he

theorem btWaitComplete_tr (env : Env) :
    ∀ fuel i, ∀ e ∈ (btWaitComplete env fuel i).tr, e = .btCheckComplete := by
  intro fuel
  induction fuel with
  | zero => intro i e he; simp [btWaitComplete] at he
  | succ f ih =>
    intro i e he
    simp only [btWaitComplete, bind_eq, pure_eq] at he
    rcases mem_tr_bind he with he | ⟨_, _, he⟩
    · simpa using he
    · rcases mem_tr_bind he with he | ⟨b, _, he⟩
      · simp at he
      · cases b with
        | false =>
          simp only [Bool.false_eq_true, if_false] at he
          exact ih (i + 1) e he
        | true => simp at he

theorem frWaitExist_tr (env : Env) (key path : String) :
    ∀ fuel i, ∀ e ∈ (frWaitExist env key path fuel i).tr,
      e = .frCheckExist key ∨ e = .frUploadNewTask path := by
  intro fuel
  induction fuel with
  | zero => intro i e he; simp [frWaitExist] at he
  | succ f ih =>
    intro i e he
    simp only [frWaitExist, bind_eq, pure_eq] at he
    rcases mem_tr_bind he with he | ⟨_, _, he⟩
    · left; simpa using he
    · rcases mem_tr_bind he with he | ⟨b, _, he⟩
      · simp at he
      · cases b with
        | false =>
          simp only [Bool.false_eq_true, if_false] at he
          rcases mem_tr_bind he with he | ⟨_, _, he⟩
          · right; simpa using he
          · rcases mem_tr_bind he with he | ⟨_, _, he⟩
            · simp at he
            · exact ih (i + 1) e he
        | true => simp at he

theorem frWaitCompleted_tr (env : Env) (key : String) :
    ∀ fuel i, ∀ e ∈ (frWaitCompleted env key fuel i).tr, e = .frCheckCompleted key := by
  intro fuel
  induction fuel with
  | zero => intro i e he; simp [frWaitCompleted] at he
  | succ f ih =>
    intro i e he
    simp only [frWaitCompleted, bind_eq, pure_eq] at he
    rcases mem_tr_bind he with he | ⟨_, _, he⟩
    · simpa using he
    · rcases mem_tr_bind he with he | ⟨b, _, he⟩
      · simp at he
      · cases b with
        | false =>
          simp only [Bool.false_eq_true, if_false] at he
          exact ih (i + 1) e he
        | true => simp at he

theorem btWaitExist_writes (env : Env) (fuel i : Nat) :
    writesOf (btWaitExist env fuel i).tr = [] := by
  refine writesOf_eq_nil_of fun e he => ?_
  rcases btWaitExist_tr env fuel i e he with h | h <;> subst h <;> rfl

theorem btWaitComplete_writes (env : Env) (fuel i : Nat) :
    writesOf (btWaitComplete env fuel i).tr = [] := by
  refine writesOf_eq_nil_of fun e he => ?_
  have h := btWaitComplete_tr env fuel i e he
  subst h
  rfl

theorem frWaitExist_writes (env : Env) (key path : String) (fuel i : Nat) :
    writesOf (frWaitExist env key path fuel i).tr = [] := by
  refine writesOf_eq_nil_of fun e he => ?_
  rcases frWaitExist_tr env key path fuel i e he with h | h <;> subst h <;> rfl

theorem frWaitCompleted_writes (env : Env) (key : String) (fuel i : Nat) :
    writesOf (frWaitCompleted env key fuel i).tr = [] := by
  refine writesOf_eq_nil_of fun e he => ?_
  have h := frWaitCompleted_tr env key fuel i e he
  subst h
  rfl

theorem btWaitExist_err (env : Env) :
    ∀ fuel i pe, (btWaitExist env fuel i).res = .error pe →
      pe = .fuel ∨ pe = .client .acq := by
  intro fuel
  induction fuel with
  | zero =>
    intro i pe h
    simp only [btWaitExist, thr_res] at h
    injection h with h
    exact Or.inl h.symm
  | succ f ih =>
    intro i pe h
    simp only [btWaitExist, bind_eq, pure_eq, bind_emit_res] at h
    cases hr : env.btCheckExist i with
    | error u =>
      rw [hr] at h
      simp only [bind_liftC_err, thr_res] at h
      injection h with h
      exact Or.inr h.symm
    | ok b =>
      rw [hr] at h
      simp only [bind_liftC_ok] at h
      cases b with
      | true => simp at h
      | false =>
        simp only [Bool.false_eq_true, if_false, bind_emit_res] at h
        cases ha : env.btAdd i with
        | error u =>
          rw [ha] at h
          simp only [bind_liftC_err, thr_res] at h
          injection h with h
          exact Or.inr h.symm
        | ok u =>
          rw [ha] at h
          simp only [bind_liftC_ok] at h
          exact ih (i + 1) pe h

theorem btWaitComplete_err (env : Env) :
    ∀ fuel i pe, (btWaitComplete env fuel i).res = .error pe →
      pe = .fuel ∨ pe = .client .acq := by
  intro fuel
  induction fuel with
  | zero =>
    intro i pe h
    simp only [btWaitComplete, thr_res] at h
    injection h with h
    exact Or.inl h.symm
  | succ f ih =>
    intro i pe h
    simp only [btWaitComplete, bind_eq, pure_eq, bind_emit_res] at h
    cases hr : env.btCheckComplete i with
    | error u =>
      rw [hr] at h
      simp only [bind_liftC_err, thr_res] at h
      injection h with h
      exact Or.inr h.symm
    | ok b =>
      rw [hr] at h
      simp only [bind_liftC_ok] at h
      cases b with
      | true => simp at h
      | false =>
        simp only [Bool.false_eq_true, if_false] at h
        exact ih (i + 1) pe h

theorem frWaitExist_err (env : Env) (key path : String) :
    ∀ fuel i pe, (frWaitExist env key path fuel i).res = .error pe →
      pe = .fuel ∨ pe = .client .fr := by
  intro fuel
  induction fuel with
  | zero =>
    intro i pe h
    simp only [frWaitExist, thr_res] at h
    injection h with h
    exact Or.inl h.symm
  | succ f ih =>
    intro i pe h
    simp only [frWaitExist, bind_eq, pure_eq, bind_emit_res] at h
    cases hr : env.frCheckExist i with
    | error u =>
      rw [hr] at h
      simp only [bind_liftC_err, thr_res] at h
      injection h with h
      exact Or.inr h.symm
    | ok b =>
      rw [hr] at h
      simp only [bind_liftC_ok] at h
      cases b with
      | true => simp at h
      | false =>
        simp only [Bool.false_eq_true, if_false, bind_emit_res] at h
        cases ha : env.frUpload i with
        | error u =>
          rw [ha] at h
          simp only [bind_liftC_err, thr_res] at h
          injection h with h
          exact Or.inr h.symm
        | ok u =>
          rw [ha] at h
          simp only [bind_liftC_ok] at h
          exact ih (i + 1) pe h

theorem frWaitCompleted_err (env : Env) (key : String) :
    ∀ fuel i pe, (frWaitCompleted env key fuel i).res = .error pe →
      pe = .fuel ∨ pe = .client .fr := by
  intro fuel
  induction fuel with
  | zero =>
    intro i pe h
    simp only [frWaitCompleted, thr_res] at h
    injection h with h
    exact Or.inl h.symm
  | succ f ih =>
    intro i pe h
    simp only [frWaitCompleted, bind_eq, pure_eq, bind_emit_res] at h
    cases hr : env.frCheckCompleted i with
    | error u =>
      rw [hr] at h
      simp only [bind_liftC_err, thr_res] at h
      injection h with h
      exact Or.inr h.symm
    | ok b =>
      rw [hr] at h
      simp only [bind_liftC_ok] at h
      cases b with
      | true => simp at h
      | false =>
        simp only [Bool.false_eq_true, if_false] at h
        exact ih (i + 1) pe h

theorem frWaitExist_head (env : Env) (key path : String) (f i : Nat) :
    (frWaitExist env key path (f + 1) i).tr.head? = some (.frCheckExist key) := by
  simp only [frWaitExist, bind_eq, pure_eq, bind_emit_tr, List.head?_cons]

/-! ## Shape lemmas for the stages -/

theorem writesOf_skip (e : Effect) (h : Effect.writeOf e = none) (tr : List Effect) :
    writesOf (e :: tr) = writesOf tr := by
  simp [writesOf, List.filterMap_cons, h]

theorem writesOf_cons_some {e : Effect} {s : TaskStatus} (h : Effect.writeOf e = some s)
    (tr : List Effect) : writesOf (e :: tr) = s :: writesOf tr := by
  simp [writesOf, List.filterMap_cons, h]

theorem assertBt_tr (st : TaskStatus) : (assertBt st).tr = [] := by
  unfold assertBt
  cases st.bt_downloaded_path <;> rfl

theorem assertBt_res {st : TaskStatus} {p : String}
    (h : st.bt_downloaded_path = some p) : (assertBt st).res = .ok p := by
  unfold assertBt
  rw [h]
  rfl

theorem assertBt_err_kind {st : TaskStatus} {pe : PErr}
    (h : (assertBt st).res = .error pe) : pe = .assertBtPath := by
  unfold assertBt at h
  cases hbt : st.bt_downloaded_path with
  | some p => rw [hbt] at h; cases h
  | none =>
    rw [hbt] at h
    injection h with h
    exact h.symm

theorem assertFr_tr (st : TaskStatus) : (assertFr st).tr = [] := by
  unfold assertFr
  cases st.finalrip_downloaded_path <;> rfl

theorem assertFr_res {st : TaskStatus} {d : String}
    (h : st.finalrip_downloaded_path = some d) : (assertFr st).res = .ok d := by
  unfold assertFr
  rw [h]
  rfl

theorem assertFr_err_kind {st : TaskStatus} {pe : PErr}
    (h : (assertFr st).res = .error pe) : pe = .assertFrPath := by
  unfold assertFr at h
  cases hfr : st.finalrip_downloaded_path with
  | some d => rw [hfr] at h; cases h
  | none =>
    rw [hfr] at h
    injection h with h
    exact h.symm

theorem publishStage_tr (env : Env) (frPath : String) (st : TaskStatus) :
    (publishStage env frPath st).tr = [] := by
  unfold publishStage
  cases hst : st.tg_uploaded with
  | true => simp
  | false =>
    cases hen : env.tgEnabled with
    | true => simp
    | false => simp

theorem publishStage_res {env : Env} {frPath : String} {st st2 : TaskStatus}
    (h : (publishStage env frPath st).res = .ok st2) :
    st2 = st ∧ (st.tg_uploaded = true ∨ env.tgEnabled = false) := by
  unfold publishStage at h
  cases hst : st.tg_uploaded with
  | true =>
    rw [hst] at h
    simp at h
    exact ⟨h.symm, Or.inl rfl⟩
  | false =>
    rw [hst] at h
    cases hen : env.tgEnabled with
    | true =>
      rw [hen] at h
      simp at h
    | false =>
      rw [hen] at h
      simp at h
      exact ⟨h.symm, Or.inr rfl⟩

theorem publishStage_err_kind {env : Env} {frPath : String} {st : TaskStatus} {pe : PErr}
    (h : (publishStage env frPath st).res = .error pe) :
    pe = .captionAttributeError := by
  unfold publishStage at h
  cases hst : st.tg_uploaded with
  | true =>
    rw [hst] at h
    simp at h
  | false =>
    rw [hst] at h
    cases hen : env.tgEnabled with
    | true =>
      rw [hen] at h
      simp only [Bool.false_eq_true, if_false, if_true, bind_eq, pure_eq, bind_thr, thr_res] at h
      injection h with h
      exact h.symm
    | false =>
      rw [hen] at h
      simp at h

theorem acquisitionStage_skip {env : Env} {fuel : Nat} {st : TaskStatus} {p : String}
    (h : st.bt_downloaded_path = some p) :
    acquisitionStage env fuel st = Pipe.pur st := by
  unfold acquisitionStage
  rw [h]
  rfl

theorem acquisitionStage_tr (env : Env) (fuel : Nat) (st : TaskStatus) :
    ∀ e ∈ (acquisitionStage env fuel st).tr,
      (e.writeOf = none ∧ e.isAcqCall = true) ∨
      ∃ p, e = .storeUpdate { st with bt_downloaded_path := some p } := by
  intro e he
  cases hbt : st.bt_downloaded_path with
  | some p =>
    rw [acquisitionStage_skip hbt] at he
    simp at he
  | none =>
    simp only [acquisitionStage, hbt, bind_eq, pure_eq] at he
    rcases mem_tr_bind he with he | ⟨_, _, he⟩
    · rcases btWaitExist_tr env fuel 0 e he with h | h <;> subst h
      · exact Or.inl ⟨rfl, rfl⟩
      · exact Or.inl ⟨rfl, rfl⟩
    · rcases mem_tr_bind he with he | ⟨_, _, he⟩
      · have h := btWaitComplete_tr env fuel 0 e he
        subst h
        exact Or.inl ⟨rfl, rfl⟩
      · rcases mem_tr_bind he with he | ⟨_, _, he⟩
        · simp only [emit_tr, List.mem_singleton] at he
          subst he
          exact Or.inl ⟨rfl, rfl⟩
        · rcases mem_tr_bind he with he | ⟨p2, _, he⟩
          · simp at he
          · rcases mem_tr_bind he with he | ⟨_, _, he⟩
            · simp only [emit_tr, List.mem_singleton] at he
              subst he
              exact Or.inr ⟨p2, rfl⟩
            · simp at he

theorem acquisitionStage_res {env : Env} {fuel : Nat} {st st2 : TaskStatus}
    (h : (acquisitionStage env fuel st).res = .ok st2) :
    st2.finalrip_downloaded_path = st.finalrip_downloaded_path ∧
    st2.tg_uploaded = st.tg_uploaded ∧
    st2.done = st.done ∧
    st2.bt_downloaded_path.isSome = true ∧
    (∀ q, st.bt_downloaded_path = some q → st2 = st) := by
  cases hbt : st.bt_downloaded_path with
  | some p =>
    rw [acquisitionStage_skip hbt] at h
    simp only [pur_res] at h
    injection h with h
    subst h
    exact ⟨rfl, rfl, rfl, by rw [hbt]; rfl, fun q _ => rfl⟩
  | none =>
    simp only [acquisitionStage, hbt, bind_eq, pure_eq] at h
    obtain ⟨_, _, h⟩ := res_bind h
    obtain ⟨_, _, h⟩ := res_bind h
    simp only [bind_emit_res] at h
    cases hg : env.btGetPath with
    | error u =>
      rw [hg] at h
      simp at h
    | ok p =>
      rw [hg] at h
      simp only [bind_liftC_ok, bind_emit_res, pur_res] at h
      injection h with h
      subst h
      exact ⟨rfl, rfl, rfl, rfl, fun q hq => Option.noConfusion hq⟩

theorem acquisitionStage_err_kind {env : Env} {fuel : Nat} {st : TaskStatus} {pe : PErr}
    (h : (acquisitionStage env fuel st).res = .error pe) :
    pe = .fuel ∨ pe = .client .acq := by
  cases hbt : st.bt_downloaded_path with
  | some p =>
    rw [acquisitionStage_skip hbt] at h
    simp at h
  | none =>
    simp only [acquisitionStage, hbt, bind_eq, pure_eq] at h
    rcases res_bind_err_cases h with h | ⟨_, _, h⟩
    · exact btWaitExist_err env fuel 0 pe h
    · rcases res_bind_err_cases h with h | ⟨_, _, h⟩
      · exact btWaitComplete_err env fuel 0 pe h
      · simp only [bind_emit_res] at h
        cases hg : env.btGetPath with
        | error u =>
          rw [hg] at h
          simp only [bind_liftC_err, thr_res] at h
          injection h with h
          exact Or.inr h.symm
        | ok p =>
          rw [hg] at h
          simp only [bind_liftC_ok, bind_emit_res, pur_res] at h
          cases h

theorem acquisitionStage_err_tr {env : Env} {fuel : Nat} {st : TaskStatus} {pe : PErr}
    (h : (acquisitionStage env fuel st).res = .error pe) :
    writesOf (acquisitionStage env fuel st).tr = [] := by
  cases hbt : st.bt_downloaded_path with
  | some p =>
    rw [acquisitionStage_skip hbt] at h
    simp at h
  | none =>
    simp only [acquisitionStage, hbt, bind_eq, pure_eq] at h ⊢
    cases hA : (btWaitExist env fuel 0).res with
    | error pe1 =>
      rw [tr_bind_err hA]
      exact btWaitExist_writes env fuel 0
    | ok a1 =>
      simp only [res_bind_ok hA] at h
      simp only [tr_bind_ok hA, writesOf_append, btWaitExist_writes, List.nil_append]
      cases hB : (btWaitComplete env fuel 0).res with
      | error pe2 =>
        rw [tr_bind_err hB]
        exact btWaitComplete_writes env fuel 0
      | ok a2 =>
        simp only [res_bind_ok hB] at h
        simp only [tr_bind_ok hB, writesOf_append, btWaitComplete_writes, List.nil_append]
        simp only [bind_emit_res] at h
        simp only [bind_emit_tr]
        cases hg : env.btGetPath with
        | error u =>
          simp only [bind_liftC_err]
          rfl
        | ok p =>
          rw [hg] at h
          simp only [bind_liftC_ok, bind_emit_res, pur_res] at h
          cases h

/-! ## Transcode stage lemmas -/

theorem transcodeStage_skip {env : Env} {fuel : Nat} {task : TaskInfo} {p : String}
    {st : TaskStatus} {d : String} (h : st.finalrip_downloaded_path = some d) :
    transcodeStage env fuel task p st = Pipe.pur st := by
  unfold transcodeStage
  rw [h]
  rfl

theorem transcodeStage_tr (env : Env) (fuel : Nat) (task : TaskInfo) (p : String)
    (st : TaskStatus) :
    ∀ e ∈ (transcodeStage env fuel task p st).tr,
      (e.writeOf = none ∧ e.isAcqCall = false) ∨
      ∃ d, e = .storeUpdate { st with finalrip_downloaded_path := some d } := by
  intro e he
  cases hfr : st.finalrip_downloaded_path with
  | some d =>
    rw [transcodeStage_skip hfr] at he
    simp at he
  | none =>
    simp only [transcodeStage, hfr, bind_eq, pure_eq] at he
    rcases mem_tr_bind he with he | ⟨_, _, he⟩
    · rcases frWaitExist_tr env (pathName p) p fuel 0 e he with h | h <;> subst h
      · exact Or.inl ⟨rfl, rfl⟩
      · exact Or.inl ⟨rfl, rfl⟩
    · rcases mem_tr_bind he with he | ⟨_, _, he⟩
      · simp only [emit_tr, List.mem_singleton] at he
        subst he
        exact Or.inl ⟨rfl, rfl⟩
      · rcases mem_tr_bind he with he | ⟨_, _, he⟩
        · simp at he
        · rcases mem_tr_bind he with he | ⟨_, _, he⟩
          · have h := frWaitCompleted_tr env (pathName p) fuel 0 e he
            subst h
            exact Or.inl ⟨rfl, rfl⟩
          · rcases mem_tr_bind he with he | ⟨_, _, he⟩
            · simp only [emit_tr, List.mem_singleton] at he
              subst he
              exact Or.inl ⟨rfl, rfl⟩
            · rcases mem_tr_bind he with he | ⟨_, _, he⟩
              · simp at he
              · rcases mem_tr_bind he with he | ⟨_, _, he⟩
                · simp only [emit_tr, List.mem_singleton] at he
                  subst he
                  exact Or.inl ⟨rfl, rfl⟩
                · rcases mem_tr_bind he with he | ⟨_, _, he⟩
                  · simp only [emit_tr, List.mem_singleton] at he
                    subst he
                    exact Or.inr ⟨_, rfl⟩
                  · simp at he

theorem transcodeStage_res {env : Env} {fuel : Nat} {task : TaskInfo} {p : String}
    {st st2 : TaskStatus} (h : (transcodeStage env fuel task p st).res = .ok st2) :
    st2.bt_downloaded_path = st.bt_downloaded_path ∧
    st2.tg_uploaded = st.tg_uploaded ∧
    st2.done = st.done ∧
    st2.finalrip_downloaded_path.isSome = true ∧
    (∀ d, st.finalrip_downloaded_path = some d → st2 = st) := by
  cases hfr : st.finalrip_downloaded_path with
  | some d =>
    rw [transcodeStage_skip hfr] at h
    simp only [pur_res] at h
    injection h with h
    subst h
    exact ⟨rfl, rfl, rfl, by rw [hfr]; rfl, fun q _ => rfl⟩
  | none =>
    simp only [transcodeStage, hfr, bind_eq, pure_eq] at h
    obtain ⟨_, _, h⟩ := res_bind h
    simp only [bind_emit_res] at h
    cases hs : env.frStart with
    | error u =>
      rw [hs] at h
      simp at h
    | ok u =>
      rw [hs] at h
      simp only [bind_liftC_ok] at h
      obtain ⟨_, _, h⟩ := res_bind h
      simp only [bind_emit_res] at h
      cases hd : env.frDownload with
      | error u2 =>
        rw [hd] at h
        simp at h
      | ok u2 =>
        rw [hd] at h
        simp only [bind_liftC_ok, bind_emit_res, pur_res] at h
        injection h with h
        subst h
        exact ⟨rfl, rfl, rfl, rfl, fun q hq => Option.noConfusion hq⟩

theorem transcodeStage_err_kind {env : Env} {fuel : Nat} {task : TaskInfo} {p : String}
    {st : TaskStatus} {pe : PErr}
    (h : (transcodeStage env fuel task p st).res = .error pe) :
    pe = .fuel ∨ pe = .client .fr := by
  cases hfr : st.finalrip_downloaded_path with
  | some d =>
    rw [transcodeStage_skip hfr] at h
    simp at h
  | none =>
    simp only [transcodeStage, hfr, bind_eq, pure_eq] at h
    rcases res_bind_err_cases h with h | ⟨_, _, h⟩
    · exact frWaitExist_err env (pathName p) p fuel 0 pe h
    · simp only [bind_emit_res] at h
      cases hs : env.frStart with
      | error u =>
        rw [hs] at h
        simp only [bind_liftC_err, thr_res] at h
        injection h with h
        exact Or.inr h.symm
      | ok u =>
        rw [hs] at h
        simp only [bind_liftC_ok] at h
        rcases res_bind_err_cases h with h | ⟨_, _, h⟩
        · exact frWaitCompleted_err env (pathName p) fuel 0 pe h
        · simp only [bind_emit_res] at h
          cases hd : env.frDownload with
          | error u2 =>
            rw [hd] at h
            simp only [bind_liftC_err, thr_res] at h
            injection h with h
            exact Or.inr h.symm
          | ok u2 =>
            rw [hd] at h
            simp only [bind_liftC_ok, bind_emit_res, pur_res] at h
            cases h

theorem transcodeStage_err_tr {env : Env} {fuel : Nat} {task : TaskInfo} {p : String}
    {st : TaskStatus} {pe : PErr}
    (h : (transcodeStage env fuel task p st).res = .error pe) :
    writesOf (transcodeStage env fuel task p st).tr = [] := by
  cases hfr : st.finalrip_downloaded_path with
  | some d =>
    rw [transcodeStage_skip hfr] at h
    simp at h
  | none =>
    simp only [transcodeStage, hfr, bind_eq, pure_eq] at h ⊢
    cases hA : (frWaitExist env (pathName p) p fuel 0).res with
    | error pe1 =>
      rw [tr_bind_err hA]
      exact frWaitExist_writes env (pathName p) p fuel 0
    | ok a1 =>
      simp only [res_bind_ok hA] at h
      simp only [tr_bind_ok hA, writesOf_append, frWaitExist_writes, List.nil_append]
      simp only [bind_emit_res] at h
      simp only [bind_emit_tr]
      cases hs : env.frStart with
      | error u =>
        simp only [bind_liftC_err]
        rfl
      | ok u =>
        rw [hs] at h
        simp only [bind_liftC_ok] at h ⊢
        rw [writesOf_skip (Effect.frStartTask (pathName p) task.param task.script) rfl]
        cases hB : (frWaitCompleted env (pathName p) fuel 0).res with
        | error pe2 =>
          rw [tr_bind_err hB]
          exact frWaitCompleted_writes env (pathName p) fuel 0
        | ok a2 =>
          simp only [res_bind_ok hB] at h
          simp only [tr_bind_ok hB, writesOf_append, frWaitCompleted_writes, List.nil_append]
          simp only [bind_emit_res] at h
          simp only [bind_emit_tr]
          cases hd : env.frDownload with
          | error u2 =>
            simp only [bind_liftC_err]
            rfl
          | ok u2 =>
            rw [hd] at h
            simp only [bind_liftC_ok, bind_emit_res, pur_res] at h
            cases h

theorem transcodeStage_head {env : Env} {f : Nat} {task : TaskInfo} {p : String}
    {st : TaskStatus} (hfr : st.finalrip_downloaded_path = none) :
    (transcodeStage env (f + 1) task p st).tr.head? = some (.frCheckExist (pathName p)) := by
  simp only [transcodeStage, hfr, bind_eq, pure_eq]
  exact head_tr_bind (frWaitExist_head env (pathName p) p f 0)

/-! ## Decomposition of the pipeline -/

theorem pipeline_some (env : Env) (fuel : Nat) (task : TaskInfo) (st : TaskStatus)
    (h : st.done = false) :
    pipeline env fuel task (some st) =
      Pipe.bind (acquisitionStage env fuel st) (fun st1 =>
        Pipe.bind (assertBt st1) (fun p =>
          Pipe.bind (transcodeStage env fuel task p st1) (fun st2 =>
            Pipe.bind (assertFr st2) (fun fr =>
              Pipe.bind (publishStage env fr st2) (fun st3 =>
                if st3.tg_uploaded then
                  Pipe.bind (emit (.storeUpdate { st3 with done := true }))
                    (fun _ => Pipe.pur ())
                else thr .assertTgUploaded))))) := by
  unfold pipeline
  simp only [bind_eq, pure_eq, bind_pur, h, Bool.false_eq_true, if_false]

theorem pipeline_none (env : Env) (fuel : Nat) (task : TaskInfo) :
    pipeline env fuel task none =
      { res := (pipeline env fuel task (some TaskStatus.init)).res,
        tr := .storeAdd TaskStatus.init ::
          (pipeline env fuel task (some TaskStatus.init)).tr } := rfl

/-! ## C5: a `done` task is a pure no-op -/

/-- C5: for every task whose stored status has `done = true`, re-running the
pipeline returns immediately: it performs zero stage-client calls and zero
store writes (the effect trace is empty) and succeeds. -/
theorem c5_done_task_noop (env : Env) (fuel : Nat) (task : TaskInfo)
    (st : TaskStatus) (h : st.done = true) :
    (pipeline env fuel task (some st)).res = .ok () ∧
    (pipeline env fuel task (some st)).tr = [] ∧
    clientCallsOf (pipeline env fuel task (some st)).tr = [] ∧
    writesOf (pipeline env fuel task (some st)).tr = [] := by
  have hp : pipeline env fuel task (some st) = Pipe.pur () := by
    unfold pipeline
    simp [bind_pur, h]
  rw [hp]
  exact ⟨rfl, rfl, rfl, rfl⟩

/-- Witness for C5 at a concrete finished task. -/
theorem c5_done_task_noop_witness :
    stDone.done = true ∧
    ((pipeline envOn 3 taskA (some stDone)).res = .ok () ∧
     (pipeline envOn 3 taskA (some stDone)).tr = [] ∧
     clientCallsOf (pipeline envOn 3 taskA (some stDone)).tr = [] ∧
     writesOf (pipeline envOn 3 taskA (some stDone)).tr = []) :=
  ⟨rfl, c5_done_task_noop envOn 3 taskA stDone rfl⟩

/-! ## C6: resuming with `acquired_path` set skips acquisition -/

theorem assertBt_eq {st : TaskStatus} {p : String}
    (h : st.bt_downloaded_path = some p) : assertBt st = Pipe.pur p := by
  unfold assertBt
  rw [h]
  rfl

theorem assertFr_eq {st : TaskStatus} {d : String}
    (h : st.finalrip_downloaded_path = some d) : assertFr st = Pipe.pur d := by
  unfold assertFr
  rw [h]
  rfl

theorem pipeline_done_eq {env : Env} {fuel : Nat} {task : TaskInfo} {st : TaskStatus}
    (h : st.done = true) : pipeline env fuel task (some st) = Pipe.pur () := by
  unfold pipeline
  simp [bind_pur, h]

theorem clientCallsOf_head {tr : List Effect} {e : Effect}
    (h : tr.head? = some e) (hc : e.isClientCall = true) :
    (clientCallsOf tr).head? = some e := by
  cases tr with
  | nil => cases h
  | cons x t =>
    simp only [List.head?_cons] at h
    injection h with h
    subst h
    simp [clientCallsOf, List.filter_cons, hc]

theorem mem_writesOf {w : TaskStatus} {tr : List Effect} :
    w ∈ writesOf tr ↔ ∃ e ∈ tr, Effect.writeOf e = some w := by
  simp [writesOf, List.mem_filterMap]

/-- C6: for every task whose reloaded status has `bt_downloaded_path` set and
`finalrip_downloaded_path` absent (and not done), running the pipeline makes
no acquisition-client call, and the first stage-client call is the transcode
client's existence check for the stored acquired path. -/
theorem c6_resume_skips_acquisition (env : Env) (fuel : Nat) (task : TaskInfo)
    (st : TaskStatus) (p : String)
    (hbt : st.bt_downloaded_path = some p)
    (hfr : st.finalrip_downloaded_path = none)
    (hdone : st.done = false) :
    noAcqCalls (pipeline env fuel task (some st)).tr = true ∧
    (1 ≤ fuel →
      (clientCallsOf (pipeline env fuel task (some st)).tr).head? =
        some (.frCheckExist (pathName p))) := by
  rw [pipeline_some env fuel task st hdone]
  simp only [acquisitionStage_skip hbt, assertBt_eq hbt, bind_pur]
  constructor
  · rw [noAcqCalls, List.all_eq_true]
    intro e he
    rcases mem_tr_bind he with he | ⟨st2, hst2, he⟩
    · rcases transcodeStage_tr env fuel task p st e he with ⟨_, hcall⟩ | ⟨d, hd⟩
      · simp [hcall]
      · subst hd; rfl
    · rcases mem_tr_bind he with he | ⟨fr, hfr2, he⟩
      · rw [assertFr_tr] at he
        simp at he
      · rcases mem_tr_bind he with he | ⟨st3, hst3, he⟩
        · rw [publishStage_tr] at he
          simp at he
        · by_cases htg : st3.tg_uploaded = true
          · rw [if_pos htg] at he
            simp only [bind_emit_tr, pur_tr, List.mem_cons, List.not_mem_nil, or_false] at he
            subst he
            rfl
          · rw [if_neg htg] at he
            simp at he
  · intro hf
    cases fuel with
    | zero => exact absurd hf (by omega)
    | succ f =>
      exact clientCallsOf_head (head_tr_bind (transcodeStage_head hfr)) rfl

/-- Witness for C6 at a concrete acquired-but-not-transcoded status. -/
theorem c6_resume_skips_acquisition_witness :
    stAcquired.bt_downloaded_path = some "/downloads/ep7.mkv" ∧
    stAcquired.finalrip_downloaded_path = none ∧
    stAcquired.done = false ∧
    (noAcqCalls (pipeline envOn 3 taskA (some stAcquired)).tr = true ∧
     (1 ≤ 3 →
       (clientCallsOf (pipeline envOn 3 taskA (some stAcquired)).tr).head? =
         some (.frCheckExist (pathName "/downloads/ep7.mkv")))) :=
  ⟨rfl, rfl, rfl,
   c6_resume_skips_acquisition envOn 3 taskA stAcquired "/downloads/ep7.mkv" rfl rfl rfl⟩

/-! ## C1: the publish stage crashes on the caption (code bug) -/

/-- C1 (code bug): starting from a status with both artifact paths set,
`published = false`, `done = false` and publishing enabled, the pipeline
does not run the publish send at all: building the caption reads
`task_info.translation`, a field `TaskInfo`/`TorrentInfo` does not define,
so the run aborts with `AttributeError` — no publish-client call and no
store write happens, contradicting the claimed send-and-persist. -/
theorem c1_publish_caption_attribute_error :
    pipeline envOn 3 taskA (some stReady) =
      { res := .error .captionAttributeError, tr := [] } := rfl

/-! ## C2: disabled publishing trips the final assert (code bug) -/

/-- C2 (code bug): with publishing administratively disabled and the same
ready status, the pipeline skips the send but then fails the
`assert task_status.tg_uploaded` on line 193 of loop.py: it aborts with
`AssertionError` and never persists `done = true`, contradicting the claimed
skip-and-complete. -/
theorem c2_publish_disabled_assert_failure :
    pipeline envOff 3 taskA (some stReady) =
      { res := .error .assertTgUploaded, tr := [] } := rfl

/-! ## C4: persisted statuses respect the checkpoint order -/

theorem writesOf_storeAdd_cons (s : TaskStatus) (tr : List Effect) :
    writesOf (.storeAdd s :: tr) = s :: writesOf tr := rfl

theorem ordered_init : statusOrdered TaskStatus.init = true := rfl

theorem ordered_btWrite {st : TaskStatus} (h : statusOrdered st = true) (p : String) :
    statusOrdered { st with bt_downloaded_path := some p } = true := by
  simp only [statusOrdered, Bool.and_eq_true, Bool.or_eq_true, Bool.not_eq_true'] at h ⊢
  exact ⟨⟨h.1.1, h.1.2⟩, Or.inr rfl⟩

theorem ordered_frWrite {st : TaskStatus} (hdone : st.done = false)
    (hbt : st.bt_downloaded_path.isSome = true) (d : String) :
    statusOrdered { st with finalrip_downloaded_path := some d } = true := by
  simp only [statusOrdered, Bool.and_eq_true, Bool.or_eq_true, Bool.not_eq_true']
  exact ⟨⟨Or.inl hdone, Or.inr rfl⟩, Or.inr hbt⟩

theorem ordered_doneWrite {st : TaskStatus} (htg : st.tg_uploaded = true)
    (hfr : st.finalrip_downloaded_path.isSome = true)
    (hbt : st.bt_downloaded_path.isSome = true) :
    statusOrdered { st with done := true } = true := by
  simp only [statusOrdered, Bool.and_eq_true, Bool.or_eq_true, Bool.not_eq_true']
  exact ⟨⟨Or.inr htg, Or.inr hfr⟩, Or.inr hbt⟩

theorem chain_of_ordered {s : TaskStatus} (en : Bool) (h : statusOrdered s = true) :
    checkpointChain en s = true := by
  simp only [statusOrdered, checkpointChain, Bool.and_eq_true, Bool.or_eq_true,
    Bool.not_eq_true'] at h ⊢
  exact ⟨⟨h.1.1.elim Or.inl (fun htg => Or.inr (Or.inl htg)), h.1.2⟩, h.2⟩

theorem pipeline_writes_ordered (env : Env) (fuel : Nat) (task : TaskInfo)
    (st : TaskStatus) (hst : statusOrdered st = true) :
    ∀ w ∈ writesOf (pipeline env fuel task (some st)).tr, statusOrdered w = true := by
  intro w hw
  rcases mem_writesOf.mp hw with ⟨e, he, hew⟩
  by_cases hdone : st.done = true
  · rw [pipeline_done_eq hdone] at he
    simp at he
  · have hdone2 : st.done = false := by
      cases hd : st.done
      · rfl
      · exact absurd hd hdone
    rw [pipeline_some env fuel task st hdone2] at he
    rcases mem_tr_bind he with he | ⟨st1, hst1, he⟩
    · rcases acquisitionStage_tr env fuel st e he with ⟨hnone, _⟩ | ⟨p, hp⟩
      · rw [hnone] at hew; cases hew
      · subst hp
        simp only [Effect.writeOf, Option.some.injEq] at hew
        subst hew
        exact ordered_btWrite hst p
    · obtain ⟨hfr1, htg1, hdone1, hbt1, _⟩ := acquisitionStage_res hst1
      rcases mem_tr_bind he with he | ⟨p, hp, he⟩
      · rw [assertBt_tr] at he; simp at he
      · rcases mem_tr_bind he with he | ⟨st2, hst2, he⟩
        · rcases transcodeStage_tr env fuel task p st1 e he with ⟨hnone, _⟩ | ⟨d, hd⟩
          · rw [hnone] at hew; cases hew
          · subst hd
            simp only [Effect.writeOf, Option.some.injEq] at hew
            subst hew
            exact ordered_frWrite (by rw [hdone1, hdone2]) hbt1 d
        · obtain ⟨hbt2, htg2, hdone2b, hfr2, _⟩ := transcodeStage_res hst2
          rcases mem_tr_bind he with he | ⟨fr, hfrr, he⟩
          · rw [assertFr_tr] at he; simp at he
          · rcases mem_tr_bind he with he | ⟨st3, hst3, he⟩
            · rw [publishStage_tr] at he; simp at he
            · obtain ⟨hst3eq, _⟩ := publishStage_res hst3
              by_cases htg : st3.tg_uploaded = true
              · rw [if_pos htg] at he
                simp only [bind_emit_tr, pur_tr, List.mem_cons, List.not_mem_nil,
                  or_false] at he
                subst he
                simp only [Effect.writeOf, Option.some.injEq] at hew
                subst hew
                rw [hst3eq] at htg ⊢
                exact ordered_doneWrite htg hfr2 (by rw [hbt2]; exact hbt1)
              · rw [if_neg htg] at he; simp at he

/-- C4: for every task identity, every status record the pipeline persists
satisfies the monotonic checkpoint order: `done → published (or publishing
disabled) → transcoded_path set → acquired_path set` — provided the record
loaded from the store satisfied the order (as every record the pipeline
itself ever wrote does, the freshly created record included). -/
theorem c4_persisted_statuses_monotone (env : Env) (fuel : Nat) (task : TaskInfo)
    (db : Option TaskStatus) (hdb : Option.all statusOrdered db = true) :
    allWritesChain env.tgEnabled (pipeline env fuel task db).tr = true := by
  cases db with
  | some s =>
    rw [allWritesChain, List.all_eq_true]
    intro w hw
    refine chain_of_ordered env.tgEnabled (pipeline_writes_ordered env fuel task s ?_ w hw)
    simpa [Option.all] using hdb
  | none =>
    rw [pipeline_none]
    rw [allWritesChain]
    rw [writesOf_storeAdd_cons, List.all_cons, Bool.and_eq_true]
    constructor
    · rfl
    · rw [List.all_eq_true]
      intro w hw
      exact chain_of_ordered env.tgEnabled
        (pipeline_writes_ordered env fuel task TaskStatus.init ordered_init w hw)

/-- Witness for C4 at a concrete ordered status. -/
theorem c4_persisted_statuses_monotone_witness :
    Option.all statusOrdered (some stAcquired) = true ∧
    allWritesChain envOn.tgEnabled (pipeline envOn 3 taskA (some stAcquired)).tr = true :=
  ⟨rfl, c4_persisted_statuses_monotone envOn 3 taskA (some stAcquired) rfl⟩

/-! ## C7: a stage-client error aborts without the stage's store write -/

/-- C7: if a stage-client operation raises during a stage, the pipeline
aborts without setting `done` anywhere; an acquisition-stage client error
leaves the store without any write at all, and a transcode-stage client
error persists no transcode or publish progress (only the acquisition
checkpoint, if it was just reached, is on disk) — the record therefore
remains at its last successfully persisted checkpoint. -/
theorem c7_client_error_atomicity (env : Env) (fuel : Nat) (task : TaskInfo)
    (st : TaskStatus) (sg : Stage)
    (herr : (pipeline env fuel task (some st)).res = .error (.client sg)) :
    noDoneWrites (pipeline env fuel task (some st)).tr = true ∧
    (sg = .acq → writesOf (pipeline env fuel task (some st)).tr = []) ∧
    (sg = .fr → writesPreserveFr st (pipeline env fuel task (some st)).tr = true) := by
  have hdone2 : st.done = false := by
    cases hd : st.done
    · rfl
    · rw [pipeline_done_eq hd] at herr
      simp at herr
  rw [pipeline_some env fuel task st hdone2] at herr ⊢
  cases hA : (acquisitionStage env fuel st).res with
  | error pe1 =>
    have hk := acquisitionStage_err_kind hA
    rw [res_bind_err hA] at herr
    injection herr with herr
    rcases hk with hk | hk
    · rw [hk] at herr; cases herr
    · rw [hk] at herr
      injection herr with herr
      rw [tr_bind_err hA]
      have hw0 : writesOf (acquisitionStage env fuel st).tr = [] :=
        acquisitionStage_err_tr hA
      refine ⟨?_, fun _ => hw0, fun hfr => ?_⟩
      · rw [noDoneWrites, hw0]; rfl
      · rw [← herr] at hfr; cases hfr
  | ok st1 =>
    obtain ⟨hfr1, htg1, hdone1, hbt1, _⟩ := acquisitionStage_res hA
    simp only [res_bind_ok hA] at herr
    simp only [tr_bind_ok hA]
    cases hbt1x : st1.bt_downloaded_path with
    | none => rw [hbt1x] at hbt1; cases hbt1
    | some p =>
      simp only [assertBt_eq hbt1x, bind_pur] at herr ⊢
      cases hC : (transcodeStage env fuel task p st1).res with
      | error pe2 =>
        have hk := transcodeStage_err_kind hC
        rw [res_bind_err hC] at herr
        injection herr with herr
        rcases hk with hk | hk
        · rw [hk] at herr; cases herr
        · rw [hk] at herr
          injection herr with herr
          rw [tr_bind_err hC]
          have hwT : writesOf (transcodeStage env fuel task p st1).tr = [] :=
            transcodeStage_err_tr hC
          rw [writesOf_append, hwT, List.append_nil]
          have hAw : ∀ w ∈ writesOf (acquisitionStage env fuel st).tr,
              w.finalrip_downloaded_path = st.finalrip_downloaded_path ∧
              w.tg_uploaded = st.tg_uploaded ∧ w.done = false := by
            intro w hw
            rcases mem_writesOf.mp hw with ⟨e, he, hew⟩
            rcases acquisitionStage_tr env fuel st e he with ⟨hnone, _⟩ | ⟨q, hq⟩
            · rw [hnone] at hew; cases hew
            · subst hq
              simp only [Effect.writeOf, Option.some.injEq] at hew
              subst hew
              exact ⟨rfl, rfl, hdone2⟩
          refine ⟨?_, fun hacq => ?_, fun _ => ?_⟩
          · rw [noDoneWrites, List.all_eq_true]
            intro w hw
            rw [writesOf_append, hwT, List.append_nil] at hw
            simp [(hAw w hw).2.2]
          · rw [← herr] at hacq; cases hacq
          · rw [writesPreserveFr, List.all_eq_true]
            intro w hw
            rw [writesOf_append, hwT, List.append_nil] at hw
            obtain ⟨h1, h2, h3⟩ := hAw w hw
            simp [h1, h2, h3]
      | ok st2 =>
        obtain ⟨hbt2, htg2, hdone2b, hfr2, _⟩ := transcodeStage_res hC
        simp only [res_bind_ok hC] at herr
        cases hfr2x : st2.finalrip_downloaded_path with
        | none => rw [hfr2x] at hfr2; cases hfr2
        | some d =>
          simp only [assertFr_eq hfr2x, bind_pur] at herr
          cases hE : (publishStage env d st2).res with
          | error pe3 =>
            have hk := publishStage_err_kind hE
            rw [res_bind_err hE] at herr
            injection herr with herr
            rw [hk] at herr
            cases herr
          | ok st3 =>
            simp only [res_bind_ok hE] at herr
            by_cases htg : st3.tg_uploaded = true
            · rw [if_pos htg] at herr
              simp only [bind_emit_res, pur_res] at herr
              cases herr
            · rw [if_neg htg] at herr
              simp only [thr_res] at herr
              injection herr with herr
              cases herr

/-- Witness for C7: the FinalRip upload raises at a concrete acquired task;
the run fails with a transcode-client error and nothing is persisted. -/
theorem c7_client_error_atomicity_witness :
    (pipeline envFrUploadFails 3 taskA (some stAcquired)).res = .error (.client .fr) ∧
    (noDoneWrites (pipeline envFrUploadFails 3 taskA (some stAcquired)).tr = true ∧
     (Stage.fr = .acq →
       writesOf (pipeline envFrUploadFails 3 taskA (some stAcquired)).tr = []) ∧
     (Stage.fr = .fr →
       writesPreserveFr stAcquired
         (pipeline envFrUploadFails 3 taskA (some stAcquired)).tr = true)) :=
  ⟨rfl, c7_client_error_atomicity envFrUploadFails 3 taskA stAcquired .fr rfl⟩

/-! ## C3: a configuration error aborts the whole tick -/

theorem runTick_cons_err {rss : RSSConfig} {c : NyaaConfig} {ts : List TorrentInfo}
    {rest : List (NyaaConfig × List TorrentInfo)} {e2 : String}
    (h : (runItems rss c ts).2 = some e2) :
    runTick rss ((c, ts) :: rest) = ((runItems rss c ts).1, some e2) := by
  simp [runTick, h]

theorem runTick_cons_ok {rss : RSSConfig} {c : NyaaConfig} {ts : List TorrentInfo}
    {rest : List (NyaaConfig × List TorrentInfo)}
    (h : (runItems rss c ts).2 = none) :
    runTick rss ((c, ts) :: rest) =
      ((runItems rss c ts).1 ++ (runTick rss rest).1, (runTick rss rest).2) := by
  simp [runTick, h]

/-- C3 (counterexample): one tick discovers an item of a misconfigured feed
and then an item of a healthy feed.  The configuration error from
`build_task_info` propagates (there is no handler in `Loop.start`): the tick
returns the error and the healthy feed's item `tiTwo` is never submitted —
the driver does not continue with the tick's remaining discovered items. -/
theorem c3_tick_abort_counterexample :
    runTick rssC3 [(cfgBad, [tiOne]), (cfgGood, [tiTwo])] =
      ([], some "script not found: missing") := rfl

/-- C3 (amended): if a discovered item references a script or param name that
is not in the routing configuration, task construction fails with a
configuration error before that item is submitted, but the error propagates
out of the driver's loops: items of earlier feeds in the tick were already
submitted, while the failing item, the rest of its feed, and all later feeds
are not submitted, and the tick (and with it the driver loop) aborts with the
error instead of continuing. -/
theorem c3_config_error_aborts_tick (rss : RSSConfig)
    (feedsPre : List (NyaaConfig × List TorrentInfo)) (cfg : NyaaConfig)
    (ti : TorrentInfo) (tis : List TorrentInfo)
    (rest : List (NyaaConfig × List TorrentInfo)) (e : String)
    (hpre : (runTick rss feedsPre).2 = none)
    (hfail : build_task_info ti cfg rss = .error e) :
    runTick rss (feedsPre ++ (cfg, ti :: tis) :: rest) =
      ((runTick rss feedsPre).1, some e) := by
  induction feedsPre with
  | nil =>
    rw [List.nil_append]
    have h1 : runItems rss cfg (ti :: tis) = ([], some e) := by
      simp [runItems, hfail]
    rw [runTick_cons_err (by rw [h1]), h1]
    rfl
  | cons ft fs ih =>
    obtain ⟨c, ts⟩ := ft
    rw [List.cons_append]
    cases hr : (runItems rss c ts).2 with
    | some e2 =>
      rw [runTick_cons_err hr] at hpre
      exact Option.noConfusion hpre
    | none =>
      have hpre2 : (runTick rss fs).2 = none := by
        rw [runTick_cons_ok hr] at hpre
        exact hpre
      calc runTick rss ((c, ts) :: (fs ++ (cfg, ti :: tis) :: rest))
          = ((runItems rss c ts).1 ++ (runTick rss (fs ++ (cfg, ti :: tis) :: rest)).1,
             (runTick rss (fs ++ (cfg, ti :: tis) :: rest)).2) := runTick_cons_ok hr
        _ = ((runItems rss c ts).1 ++ (runTick rss fs).1, some e) := by
              rw [ih hpre2]
        _ = ((runTick rss ((c, ts) :: fs)).1, some e) := by
              rw [runTick_cons_ok hr]

/-- Witness for C3's amended statement at a concrete two-feed tick. -/
theorem c3_config_error_aborts_tick_witness :
    (runTick rssC3 [(cfgGood, [tiOne])]).2 = none ∧
    build_task_info tiTwo cfgBad rssC3 = .error "script not found: missing" ∧
    runTick rssC3 ([(cfgGood, [tiOne])] ++ (cfgBad, tiTwo :: []) :: []) =
      ((runTick rssC3 [(cfgGood, [tiOne])]).1, some "script not found: missing") :=
  ⟨rfl, rfl,
   c3_config_error_aborts_tick rssC3 [(cfgGood, [tiOne])] cfgBad tiTwo [] []
     "script not found: missing" rfl rfl⟩

/-! ## C8: executor deduplication by task identity -/

/-- C8: submitting work for an identity that is already running is a no-op
(the state is unchanged and the work is not started), and both `submit` and
`finish` preserve the at-most-one-running-execution-per-identity invariant
(no duplicates in the running set).  Modelled from the spec (§4.2):
`AsyncTaskExecutor` is not under `src/`. -/
theorem c8_executor_dedup (s : ExecutorState) (tid : String) :
    (s.running.contains tid = true → ExecutorState.submit s tid = (s, false)) ∧
    (s.running.Nodup → (ExecutorState.submit s tid).1.running.Nodup) ∧
    (s.running.Nodup → (ExecutorState.finish s tid).running.Nodup) := by
  refine ⟨fun h => ?_, fun hnd => ?_, fun hnd => ?_⟩
  · unfold ExecutorState.submit
    rw [if_pos h]
  · unfold ExecutorState.submit
    by_cases h : s.running.contains tid = true
    · rw [if_pos h]
      exact hnd
    · rw [if_neg h]
      refine List.nodup_cons.mpr ⟨fun hm => h ?_, hnd⟩
      simpa using hm
  · exact hnd.erase tid

/-- Witness for C8 at a concrete running set. -/
theorem c8_executor_dedup_witness :
    ExecutorState.submit ⟨["a", "b"]⟩ "a" = (⟨["a", "b"]⟩, false) ∧
    (ExecutorState.submit ⟨["a", "b"]⟩ "a").1.running.Nodup ∧
    (ExecutorState.finish ⟨["a", "b"]⟩ "a").running.Nodup :=
  ⟨(c8_executor_dedup ⟨["a", "b"]⟩ "a").1 rfl,
   (c8_executor_dedup ⟨["a", "b"]⟩ "a").2.1 (by decide),
   (c8_executor_dedup ⟨["a", "b"]⟩ "a").2.2 (by decide)⟩

/-! ## C9: the sender swallows non-network failures -/

/-- C9 (counterexample to the caller clause): at a concrete ready-to-publish
status with publishing enabled, the publish stage aborts with
`AttributeError` while building the caption, before `send_video` is ever
called — so the pipeline does not persist `tg_uploaded = true` after a
swallowed send failure; it never reaches the send at all. -/
theorem c9_publish_never_reaches_send :
    pipeline envOn 4 taskA (some stReadyB) =
      { res := .error .captionAttributeError, tr := [] } := rfl

theorem send_video_loop_network (env : TgEnv) (hf : env.fileExists = true)
    (hb : env.bot = fun _ => BotResult.networkError) :
    ∀ left i, send_video_loop env left i = (.retryError .networkError, left + 1, 0) := by
  intro left
  induction left with
  | zero =>
    intro i
    simp [send_video_loop, send_video_attempt, hf, hb]
  | succ l ih =>
    intro i
    simp [send_video_loop, send_video_attempt, hf, hb, ih (i + 1)]

/-- C9 (amended, the `send_video` part): when the video file exists, a
non-network failure of the underlying bot send is caught and only printed
and the call returns normally with zero deliveries; network errors are
re-raised and retried, and after the 10-attempt budget the call fails with
tenacity's `RetryError` having delivered nothing; a missing file raises
`FileNotFoundError` (before any bot call) on the attempt. -/
theorem c9_send_video_error_handling (env : TgEnv) :
    (env.fileExists = true → env.bot 0 = .otherError →
      send_video env = (.ok, 1, 0)) ∧
    (env.fileExists = true → env.bot = (fun _ => BotResult.networkError) →
      send_video env = (.retryError .networkError, 10, 0)) ∧
    (env.fileExists = false →
      (send_video_attempt env 0).res = .error .fileNotFound ∧
      (send_video_attempt env 0).botCalls = 0) := by
  refine ⟨fun hf hb => ?_, fun hf hb => ?_, fun hf => ?_⟩
  · show send_video_loop env 9 0 = (.ok, 1, 0)
    rw [show (9 : Nat) = 8 + 1 from rfl]
    simp [send_video_loop, send_video_attempt, hf, hb]
  · show send_video_loop env 9 0 = (.retryError .networkError, 10, 0)
    rw [send_video_loop_network env hf hb 9 0]
  · constructor
    · simp [send_video_attempt, hf]
    · simp [send_video_attempt, hf]

/-- Witness for C9 at concrete sender environments. -/
theorem c9_send_video_error_handling_witness :
    (tgEnvOther.fileExists = true ∧ tgEnvOther.bot 0 = .otherError ∧
      send_video tgEnvOther = (.ok, 1, 0)) ∧
    (tgEnvNet.fileExists = true ∧ tgEnvNet.bot = (fun _ => BotResult.networkError) ∧
      send_video tgEnvNet = (.retryError .networkError, 10, 0)) ∧
    (tgEnvMissing.fileExists = false ∧
      (send_video_attempt tgEnvMissing 0).res = .error .fileNotFound ∧
      (send_video_attempt tgEnvMissing 0).botCalls = 0) :=
  ⟨⟨rfl, rfl, (c9_send_video_error_handling tgEnvOther).1 rfl rfl⟩,
   ⟨rfl, rfl, (c9_send_video_error_handling tgEnvNet).2.1 rfl rfl⟩,
   ⟨rfl, ((c9_send_video_error_handling tgEnvMissing).2.2 rfl).1,
    ((c9_send_video_error_handling tgEnvMissing).2.2 rfl).2⟩⟩

/-! ## C10: upload precondition checks happen before any network operation -/

/-- C10: `upload_and_new_task` raises `FileNotFoundError` when the local
file does not exist and `ValueError` when its extension is not a supported
video extension, and in both cases it raises before any network operation
(no presigned-URL request, no upload, no task creation in the trace). -/
theorem c10_upload_precondition_checks (env : FrEnv) (exts : List String) (p : String) :
    (env.fileExists = false →
      upload_and_new_task env exts p = (.error .fileNotFound, [])) ∧
    (env.fileExists = true → exts.contains (pathSuffix p) = false →
      upload_and_new_task env exts p = (.error .valueErrorExtension, [])) := by
  constructor
  · intro h
    unfold upload_and_new_task
    rw [h]
    rfl
  · intro h1 h2
    unfold upload_and_new_task
    rw [h1, h2]
    rfl

/-- Witness for C10 at a concrete path whose extension is unsupported. -/
theorem c10_upload_precondition_checks_witness :
    frEnvMissing.fileExists = false ∧
    frEnvPresent.fileExists = true ∧
    extsA.contains (pathSuffix "video.avi") = false ∧
    upload_and_new_task frEnvMissing extsA "video.avi" = (.error .fileNotFound, []) ∧
    upload_and_new_task frEnvPresent extsA "video.avi" = (.error .valueErrorExtension, []) :=
  ⟨rfl, rfl, by decide,
   (c10_upload_precondition_checks frEnvMissing extsA "video.avi").1 rfl,
   (c10_upload_precondition_checks frEnvPresent extsA "video.avi").2 rfl (by decide)⟩

end AnimePipeline
